import Mathlib

/-!
Shallow embedding of the Polymarket hedged-arbitrage bot sources:
`src/config/index.ts`, `src/balance-logger.ts`, the `simulateTx` helper, and
the hedged-entry decision engine described in the specification.

TypeScript string and number primitives are modelled at the character-list /
rational level; wall-clock times are nonnegative milliseconds since the Unix
epoch (UTC), matching `Date.getTime()`.
-/

namespace PolyArb

/-! ## JS string primitives -/

/-- Model of JS `String.prototype.trim`: drop whitespace from both ends. -/
def jsTrim (s : String) : String :=
  String.mk (((s.data.dropWhile Char.isWhitespace).reverse.dropWhile Char.isWhitespace).reverse)

/-- Model of JS `String.prototype.toLowerCase`, restricted to its action on
basic Latin letters (market names and config values are ASCII). -/
def jsToLower (s : String) : String :=
  String.mk (s.data.map Char.toLower)

/-- Model of JS `String.prototype.split(",")`: split on every comma,
keeping empty segments (`"".split(",")` is `[""]`). -/
def jsSplitComma (s : String) : List String :=
  (s.data.splitOn ',').map String.mk

/-- Model of the JS string expression `s || dflt` (empty string is falsy,
`undefined` is falsy). -/
def jsOrString (s : Option String) (dflt : String) : String :=
  match s with
  | some v => if v = "" then dflt else v
  | none => dflt

/-! ## Environment model (`src/config/index.ts`) -/

/-- The process environment: a partial map from variable names to raw values. -/
abbrev Env := String → Option String

/-- Model of JS `Number(raw)`: `some q` when the string denotes the finite
number `q`, `none` when the result is non-finite (`NaN` or `±Infinity`). -/
abbrev NumParse := String → Option ℚ

/-- Embedding of `envString` from `src/config/index.ts`: trim the raw value;
return it when nonempty, otherwise return the fallback. -/
def envString (env : Env) (name : String) (fallback : Option String) : Option String :=
  match env name with
  | some v => if jsTrim v = "" then fallback else some (jsTrim v)
  | none => fallback

/-- Embedding of `envNumber` from `src/config/index.ts`: fallback when the
variable is unset/blank or when `Number(raw)` is not finite. -/
def envNumber (env : Env) (parse : NumParse) (name : String) (fallback : ℚ) : ℚ :=
  match envString env name none with
  | none => fallback
  | some raw =>
    match parse raw with
    | some n => n
    | none => fallback

/-- Embedding of `envCsvLower` from `src/config/index.ts`: split the raw (or
fallback) csv on commas, trim and lowercase each entry, drop empty entries
(`filter(Boolean)`). -/
def envCsvLower (env : Env) (name : String) (fallbackCsv : String) : List String :=
  let raw := (envString env name (some fallbackCsv)).getD fallbackCsv
  ((jsSplitComma raw).map (fun s => jsToLower (jsTrim s))).filter (fun s => s != "")

/-- Embedding of `requireEnv` from `src/config/index.ts`: `throw new
Error(name + " not found")` when the variable is unset or blank. -/
def requireEnv (env : Env) (name : String) : Except String String :=
  match envString env name none with
  | some v => Except.ok v
  | none => Except.error (name ++ " not found")

/-- Embedding of `config.copytrade.threshold`: default 0.499 behind two env
variables. -/
def configThreshold (env : Env) (parse : NumParse) : ℚ :=
  envNumber env parse "COPYTRADE_THRESHOLD" (envNumber env parse "GABAGOOL_THRESHOLD" 0.499)

/-- Embedding of `config.copytrade.reversalDelta`: default 0.020. -/
def configReversalDelta (env : Env) (parse : NumParse) : ℚ :=
  envNumber env parse "REVERSAL_DELTA" 0.020

/-- Embedding of `config.copytrade.depthBuyDiscountPercent`: default 0.05. -/
def configDepthBuyDiscountPercent (env : Env) (parse : NumParse) : ℚ :=
  envNumber env parse "COPYTRADE_DEPTH_BUY_DISCOUNT_PERCENT" 0.05

/-- Embedding of `config.copytrade.maxSumAvg`: default 0.98. -/
def configMaxSumAvg (env : Env) (parse : NumParse) : ℚ :=
  envNumber env parse "COPYTRADE_MAX_SUM_AVG" 0.98

/-- Embedding of `config.copytrade.markets`: comma-separated markets behind
`COPYTRADE_MARKETS`, falling back to `GABAGOOL_MARKETS` and finally "btc". -/
def configMarkets (env : Env) : List String :=
  envCsvLower env "COPYTRADE_MARKETS" ((envString env "GABAGOOL_MARKETS" (some "btc")).getD "btc")

/-- Embedding of `config.privateKey` (`envString("PRIVATE_KEY")`). -/
def configPrivateKey (env : Env) : Option String :=
  envString env "PRIVATE_KEY" none

/-- Embedding of `config.requirePrivateKey`. -/
def requirePrivateKey (env : Env) : Except String String :=
  requireEnv env "PRIVATE_KEY"

/-- Embedding of the guard at the top of `createCredential`
(security/createCredential.ts, reproduced in BOT_FEATURES_SUMMARY.md):
`if (!privateKey) return null;` — `none` means startup aborted before any
credential-creation work; `some pk` means it proceeds with that key. -/
def createCredential (env : Env) : Option String :=
  match configPrivateKey env with
  | none => none
  | some pk => some pk

/-! ## Balance logger time functions (`src/balance-logger.ts`)

Times are nonnegative milliseconds since the epoch (UTC). -/

/-- Model of `d.setSeconds(0, 0)`: truncate to the start of the minute. -/
def setSeconds0 (t : Nat) : Nat := t - t % 60000

/-- Model of `d.getMinutes()` (UTC): minutes within the hour. -/
def getMinutes (t : Nat) : Nat := (t / 60000) % 60

/-- Model of `d.setMinutes(m, 0, 0)` on a seconds-truncated time `t`:
replace the minutes-within-hour by `m` (overflow past 59 rolls into the next
hour, as in JS). -/
def setMinutesOf (t : Nat) (m : Nat) : Nat := t - getMinutes t * 60000 + m * 60000

/-- Window start used by `getCurrentMarketSlug`: seconds and milliseconds
zeroed, minutes truncated to a multiple of 15. -/
def slugWindowStart (t : Nat) : Nat :=
  setMinutesOf (setSeconds0 t) (getMinutes (setSeconds0 t) / 15 * 15)

/-- Embedding of `getCurrentMarketSlug` from `src/balance-logger.ts`:
the template literal `market-${Math.floor(d.getTime() / 1000)}`. -/
def getCurrentMarketSlug (t : Nat) : String :=
  "market-" ++ Nat.repr (slugWindowStart t / 1000)

/-- The cycle id the balance logger produces for a market at time `t`.
In the source, `getCurrentMarketSlug` takes no market argument, so the id
does not depend on the market name. -/
def cycleIdFor (_market : String) (t : Nat) : String :=
  getCurrentMarketSlug t

/-- Embedding of `getNext15mBoundary` from `src/balance-logger.ts`:
seconds zeroed, minutes advanced to the next multiple of 15. -/
def getNext15mBoundary (t : Nat) : Nat :=
  setMinutesOf (setSeconds0 t) ((getMinutes (setSeconds0 t) / 15 + 1) * 15)

/-- Embedding of `msUntilNext15mBoundary` from `src/balance-logger.ts`:
`Math.max(0, boundary - now)`; truncated `Nat` subtraction is exactly
`max 0` of the integer difference. -/
def msUntilNext15mBoundary (t : Nat) : Nat :=
  getNext15mBoundary t - t

/-! ## `getUsdcBalance` (`src/balance-logger.ts`) -/

/-- Outcome of the balance fetch inside `getUsdcBalance`'s `try` block. -/
inductive BalanceFetch where
  | clientUnavailable : BalanceFetch
  | requestError : BalanceFetch
  | success (balance : Option String) : BalanceFetch

/-- Model of JS `parseFloat` on the numeric strings the CLOB returns. -/
abbrev FloatParse := String → ℚ

/-- Embedding of `getUsdcBalance` from `src/balance-logger.ts`: any failure
is caught and yields 0; on success the (possibly missing) balance string is
parsed and divided by 10^6. -/
def getUsdcBalance (parseF : FloatParse) (fetch : BalanceFetch) : ℚ :=
  match fetch with
  | BalanceFetch.clientUnavailable => 0
  | BalanceFetch.requestError => 0
  | BalanceFetch.success b => parseF (jsOrString b "0") / 10 ^ 6

/-! ## `simulateTx` (`src/unnamed/part_000`) -/

/-- Outcome of the axios POST inside `simulateTx`. With
`validateStatus: () => true` every completed HTTP exchange resolves to a
`response` carrying its status; only transport errors reject. -/
inductive HttpResult where
  | response (status : Nat) : HttpResult
  | exception : HttpResult

/-- Embedding of `simulateTx`: true exactly for a 2xx response; the catch-all
returns false, so the function is total (never throws). -/
def simulateTx (res : HttpResult) : Bool :=
  match res with
  | HttpResult.response status => decide (200 ≤ status) && decide (status < 300)
  | HttpResult.exception => false

/-! ## Decimal printing (`Nat.repr`) helpers

A reference decimal-digits function and a decoder, used to show that the
numeric part of a market slug determines the slug string. -/

/-- Reference decimal digit list of a natural number (most significant
first), agreeing with core `Nat.toDigits 10`. -/
def decDigits (n : Nat) : List Char :=
  if n < 10 then [Nat.digitChar n]
  else decDigits (n / 10) ++ [Nat.digitChar (n % 10)]
termination_by n
decreasing_by exact Nat.div_lt_self (by omega) (by omega)

/-- Decode a decimal digit list back to a natural number. -/
def decodeDigits (l : List Char) : Nat :=
  l.foldl (fun acc c => acc * 10 + (c.toNat - 48)) 0

/-! ## Hedged-entry decision engine

Modelled from the spec: the per-market state machine of `CopytradeArbBot`
(`src/order-builder/copytrade.ts`) is not among the provided source files;
the definitions below follow spec §3 (PositionState, TrackingState) and
§4.2–§4.3 (ProfitabilityGuard, DecisionEngine: flexible entry, strict
alternation, per-side buy cap, depth / second-side / reversal triggers). -/

/-- One side of the complementary binary-outcome token pair. -/
inductive Side where
  | A : Side
  | B : Side
deriving DecidableEq

/-- The side not most recently bought: strict alternation target. -/
def Side.other : Side → Side
  | Side.A => Side.B
  | Side.B => Side.A

/-- Modelled from the spec: engine configuration (spec §6 configuration
surface); prices and thresholds are rationals. -/
structure EngineConfig where
  threshold : ℚ
  reversalDelta : ℚ
  depthBuyDiscountPercent : ℚ
  secondSideBuffer : ℚ
  dynamicThresholdBoost : ℚ
  maxBuysPerSide : Nat
  sharesPerSide : ℚ
  maxSumAvg : ℚ

/-- Modelled from the spec: durable per-`(market, cycleId)` position state
(spec §3): quantity, cost and buy count per side, last side bought, last
buy price. -/
structure PositionState where
  qtyA : ℚ
  qtyB : ℚ
  costA : ℚ
  costB : ℚ
  buysA : Nat
  buysB : Nat
  lastSide : Option Side
  lastBuyPrice : ℚ

/-- Modelled from the spec: in-memory tracking state (spec §3): watched
side, lowest price seen for it, hedge-complete flag. -/
structure TrackingState where
  watched : Option Side
  tempPrice : Option ℚ
  hedgeComplete : Bool

/-- Combined per-`(market, cycleId)` engine state. -/
structure EngineState where
  pos : PositionState
  track : TrackingState

/-- Fresh position: no buys on either side. -/
def initPosition : PositionState :=
  ⟨0, 0, 0, 0, 0, 0, none, 0⟩

/-- Fresh tracking state: `AWAITING_ENTRY`. -/
def initTracking : TrackingState :=
  ⟨none, none, false⟩

/-- Engine state at the start of a cycle. -/
def initEngine : EngineState :=
  ⟨initPosition, initTracking⟩

/-- Buy count for a side. -/
def PositionState.buys (p : PositionState) : Side → Nat
  | Side.A => p.buysA
  | Side.B => p.buysB

/-- Quantity held on a side. -/
def PositionState.qty (p : PositionState) : Side → ℚ
  | Side.A => p.qtyA
  | Side.B => p.qtyB

/-- Cumulative cost on a side. -/
def PositionState.cost (p : PositionState) : Side → ℚ
  | Side.A => p.costA
  | Side.B => p.costB

/-- Sum of weighted-average costs across both sides (spec §3: defined once
both sides have at least one buy). -/
def PositionState.sumAvg (p : PositionState) : ℚ :=
  p.costA / p.qtyA + p.costB / p.qtyB

/-- Modelled from the spec: apply one confirmed buy of `cfg.sharesPerSide`
shares on side `s` at price `price` to the position (spec §4.3). -/
def PositionState.applyBuy (p : PositionState) (cfg : EngineConfig) (s : Side) (price : ℚ) :
    PositionState :=
  match s with
  | Side.A =>
    ⟨p.qtyA + cfg.sharesPerSide, p.qtyB, p.costA + cfg.sharesPerSide * price, p.costB,
      p.buysA + 1, p.buysB, some Side.A, price⟩
  | Side.B =>
    ⟨p.qtyA, p.qtyB + cfg.sharesPerSide, p.costA, p.costB + cfg.sharesPerSide * price,
      p.buysA, p.buysB + 1, some Side.B, price⟩

/-- Modelled from the spec: ProfitabilityGuard (spec §4.2): reject when the
current `sumAvg` (once both sides have a buy) already exceeds the ceiling,
or when the prospective post-buy `sumAvg` would exceed it. -/
def guardAccepts (cfg : EngineConfig) (p : PositionState) (s : Side) (price : ℚ) : Bool :=
  let p2 := p.applyBuy cfg s price
  (decide (p.qtyA ≤ 0) || decide (p.qtyB ≤ 0) || decide (p.sumAvg ≤ cfg.maxSumAvg)) &&
    (decide (p2.qtyA ≤ 0) || decide (p2.qtyB ≤ 0) || decide (p2.sumAvg ≤ cfg.maxSumAvg))

/-- Modelled from the spec: buy triggers for the watched side (spec §4.3),
evaluated against the already-updated local minimum `tempPrice`:
depth trigger, second-side trigger (only once the opposite side has a buy),
reversal trigger. -/
def triggerFires (cfg : EngineConfig) (p : PositionState) (s : Side) (price tempPrice : ℚ) :
    Bool :=
  let depth := decide (price ≤ tempPrice * (1 - cfg.depthBuyDiscountPercent))
  let second :=
    decide (1 ≤ p.buys s.other) &&
      decide (price ≤ 1 - p.lastBuyPrice + cfg.dynamicThresholdBoost - cfg.secondSideBuffer)
  let reversal := decide (tempPrice + cfg.reversalDelta < price)
  depth || second || reversal

/-- Modelled from the spec: commit a buy on side `s` (spec §4.3): update the
position, flip the watched side, reset `tempPrice`, and mark the hedge
complete when both sides have reached the per-side cap. -/
def doBuy (cfg : EngineConfig) (st : EngineState) (s : Side) (price : ℚ) : EngineState :=
  let pos2 := st.pos.applyBuy cfg s price
  let complete := decide (cfg.maxBuysPerSide ≤ pos2.buysA) && decide (cfg.maxBuysPerSide ≤ pos2.buysB)
  ⟨pos2, ⟨some s.other, none, complete⟩⟩

/-- Modelled from the spec: attempt a buy on side `s`: the per-side cap
(spec §3 invariant, §4.3 position limits) and the ProfitabilityGuard must
both pass; otherwise the state (with any tracking updates already applied)
is left unchanged. -/
def attemptBuy (cfg : EngineConfig) (st : EngineState) (s : Side) (price : ℚ) : EngineState :=
  if decide (st.pos.buys s < cfg.maxBuysPerSide) && guardAccepts cfg st.pos s price then
    doBuy cfg st s price
  else
    st

/-- Modelled from the spec: one tick of the DecisionEngine for one market
(spec §4.3): in `COMPLETE` do nothing; in `AWAITING_ENTRY` buy the first
side at or below the entry threshold (flexible entry); in `TRACKING_HEDGE`
update `tempPrice` to the running minimum, then attempt a buy when a
trigger fires. -/
def tick (cfg : EngineConfig) (st : EngineState) (pA pB : ℚ) : EngineState :=
  if st.track.hedgeComplete then st
  else
    match st.track.watched with
    | none =>
      if pA ≤ cfg.threshold then attemptBuy cfg st Side.A pA
      else if pB ≤ cfg.threshold then attemptBuy cfg st Side.B pB
      else st
    | some s =>
      let price := match s with | Side.A => pA | Side.B => pB
      let temp2 := match st.track.tempPrice with | none => price | some tp => min tp price
      let st2 : EngineState := ⟨st.pos, ⟨some s, some temp2, st.track.hedgeComplete⟩⟩
      if triggerFires cfg st.pos s price temp2 then attemptBuy cfg st2 s price
      else st2

/-- Run the engine over a sequence of ticks (price pairs) within one cycle. -/
def runTicks (cfg : EngineConfig) (st : EngineState) (ticks : List (ℚ × ℚ)) : EngineState :=
  ticks.foldl (fun s pq => tick cfg s pq.1 pq.2) st

/-! ## Auxiliary definitions for the statements -/

/-- The environment with no variables set. -/
def emptyEnv : Env := fun _ => none

/-- Restatement of the spec's description of the market list, for the
refinement comparison: "the sequence of comma-separated entries with each
entry trimmed of surrounding whitespace and lowercased, and with entries
that trim to the empty string removed". -/
def csvSpec (raw : String) : List String :=
  ((jsSplitComma raw).filter (fun e => jsTrim e != "")).map (fun e => jsToLower (jsTrim e))

/-- A string is lowercase when JS lowercasing leaves it unchanged. -/
def isLowerStr (s : String) : Prop := jsToLower s = s

/-- The documented default configuration of the engine (spec §6, §8):
threshold 0.499, reversal delta 0.020, depth discount 5%, second-side
buffer 0.01, boost 0.04, 4 buys per side of 5 shares, max sumAvg 0.98. -/
def defaultEngineConfig : EngineConfig :=
  ⟨0.499, 0.020, 0.05, 0.01, 0.04, 4, 5, 0.98⟩

/-! # Theorems -/

/-- Helper: the next-boundary computation truncates to the enclosing
15-minute window and adds one window. -/
theorem getNext15mBoundary_eq (t : Nat) : getNext15mBoundary t = t - t % 900000 + 900000 := by
  unfold getNext15mBoundary setMinutesOf getMinutes setSeconds0
  omega

/-- Helper: the slug window start is the time truncated to 15 minutes. -/
theorem slugWindowStart_eq (t : Nat) : slugWindowStart t = t - t % 900000 := by
  unfold slugWindowStart setMinutesOf getMinutes setSeconds0
  omega

/-- Helper: core `Nat.toDigitsCore` at base 10 agrees with the reference
digit function whenever the fuel is sufficient. -/
theorem toDigitsCore10 (fuel : Nat) : ∀ (n : Nat) (ds : List Char), n < fuel →
    Nat.toDigitsCore 10 fuel n ds = decDigits n ++ ds := by
  induction fuel with
  | zero => intro n ds h; omega
  | succ f ih =>
    intro n ds h
    unfold Nat.toDigitsCore
    dsimp only
    split
    · rename_i h0
      have hn : n < 10 := by omega
      rw [decDigits]
      rw [if_pos hn]
      have hmod : n % 10 = n := Nat.mod_eq_of_lt hn
      rw [hmod]
      rfl
    · rename_i h0
      have h1 : n / 10 < f := by
        have h2 : n / 10 < n := Nat.div_lt_self (by omega) (by omega)
        omega
      rw [ih (n / 10) _ h1]
      have hge : ¬ n < 10 := by omega
      conv_rhs => rw [decDigits, if_neg hge]
      simp

/-- Helper: `Nat.repr` is printing the reference digit list. -/
theorem repr_eq_decDigits (n : Nat) : Nat.repr n = (decDigits n).asString := by
  unfold Nat.repr Nat.toDigits
  rw [toDigitsCore10 (n + 1) n [] (by omega)]
  simp

/-- Helper: code point of a decimal digit character. -/
theorem digitChar_toNat (d : Nat) (h : d < 10) : (Nat.digitChar d).toNat = 48 + d := by
  interval_cases d <;> rfl

/-- Helper: decoding inverts the reference digit function. -/
theorem decode_decDigits (n : Nat) : decodeDigits (decDigits n) = n := by
  induction n using Nat.strong_induction_on with
  | _ n ih =>
    by_cases h : n < 10
    · rw [decDigits, if_pos h]
      simp [decodeDigits, digitChar_toNat n h]
    · rw [decDigits, if_neg h]
      unfold decodeDigits
      rw [List.foldl_append]
      have hd : (Nat.digitChar (n % 10)).toNat = 48 + n % 10 := digitChar_toNat _ (by omega)
      have ihn := ih (n / 10) (Nat.div_lt_self (by omega) (by omega))
      unfold decodeDigits at ihn
      simp [ihn, hd]
      omega

/-- Helper: decimal printing of naturals is injective. -/
theorem repr_injective {a b : Nat} (h : Nat.repr a = Nat.repr b) : a = b := by
  rw [repr_eq_decDigits, repr_eq_decDigits] at h
  have hd : decDigits a = decDigits b := by
    have h2 := congrArg String.data h
    simp only [List.asString] at h2
    exact h2
  have ha := decode_decDigits a
  have hb := decode_decDigits b
  rw [← ha, ← hb, hd]

/-- Helper: string concatenation is left-cancellative. -/
theorem append_left_cancel_str {s a b : String} (h : s ++ a = s ++ b) : a = b := by
  have h2 : s.data ++ a.data = s.data ++ b.data := by
    have h3 := congrArg String.data h
    simpa using h3
  have h4 := List.append_cancel_left h2
  cases a
  cases b
  simp at h4
  simp [h4]

/-- C2: any two times in the same 15-minute window (same truncation
`t / 900000`) yield the same cycle id, and any two times in adjacent
windows yield different cycle ids; `getCurrentMarketSlug` is a pure total
function of the time. -/
theorem C2_cycleId_window (t1 t2 : Nat) :
    (t1 / 900000 = t2 / 900000 → getCurrentMarketSlug t1 = getCurrentMarketSlug t2) ∧
    (t1 / 900000 + 1 = t2 / 900000 → getCurrentMarketSlug t1 ≠ getCurrentMarketSlug t2) := by
  constructor
  · intro h
    have hs : slugWindowStart t1 = slugWindowStart t2 := by
      rw [slugWindowStart_eq, slugWindowStart_eq]
      omega
    unfold getCurrentMarketSlug
    rw [hs]
  · intro h hcontra
    unfold getCurrentMarketSlug at hcontra
    have h1 := append_left_cancel_str hcontra
    have h2 := repr_injective h1
    rw [slugWindowStart_eq, slugWindowStart_eq] at h2
    have e1 : t1 - t1 % 900000 = 900000 * (t1 / 900000) := by omega
    have e2 : t2 - t2 % 900000 = 900000 * (t2 / 900000) := by omega
    rw [e1, e2] at h2
    omega

/-- Witness for C2: 5 ms and 600000 ms lie in window 0 and share a slug;
900005 ms lies in the adjacent window 1 and gets a different slug. -/
theorem C2_cycleId_window_witness :
    getCurrentMarketSlug 5 = getCurrentMarketSlug 600000 ∧
    getCurrentMarketSlug 5 ≠ getCurrentMarketSlug 900005 :=
  ⟨(C2_cycleId_window 5 600000).1 (by norm_num),
   (C2_cycleId_window 5 900005).2 (by norm_num)⟩

/-- C3 counterexample: in the source, `getCurrentMarketSlug` takes no market
name, so the distinct markets "btc" and "eth" receive the same cycle id at
the same time — refuting the claimed distinctness. -/
theorem C3_counterexample :
    ("btc" : String) ≠ "eth" ∧ cycleIdFor "btc" 0 = cycleIdFor "eth" 0 :=
  ⟨by decide, rfl⟩

/-- C3 amended: the cycle id is derived from the window start timestamp
only; the market name does not enter it, so all market names at the same
time share one cycle id. -/
theorem C3_cycleId_market_independent (m1 m2 : String) (t : Nat) :
    cycleIdFor m1 t = cycleIdFor m2 t ∧ cycleIdFor m1 t = getCurrentMarketSlug t :=
  ⟨rfl, rfl⟩

/-- C8: the wait until the next 15-minute boundary is strictly positive, at
most 900000 ms, equals the next boundary minus now, and is exactly
900000 ms when now is already on a boundary. -/
theorem C8_msUntilNext15mBoundary (t : Nat) :
    0 < msUntilNext15mBoundary t ∧
    msUntilNext15mBoundary t ≤ 900000 ∧
    msUntilNext15mBoundary t = getNext15mBoundary t - t ∧
    (t % 900000 = 0 → msUntilNext15mBoundary t = 900000) := by
  have h := getNext15mBoundary_eq t
  unfold msUntilNext15mBoundary
  refine ⟨?_, ?_, rfl, ?_⟩
  · omega
  · omega
  · intro h0
    omega

/-- Witness for C8: 1800000 ms is exactly on a boundary and the wait there
is a full window. -/
theorem C8_msUntilNext15mBoundary_witness :
    (1800000 : Nat) % 900000 = 0 ∧ msUntilNext15mBoundary 1800000 = 900000 :=
  ⟨by norm_num, (C8_msUntilNext15mBoundary 1800000).2.2.2 (by norm_num)⟩

/-- C4: with no overriding environment variables set, the entry threshold is
0.499, the reversal delta 0.020, the depth-buy discount 0.05 and the maximum
sum of averages 0.98. -/
theorem C4_config_defaults (parse : NumParse) :
    configThreshold emptyEnv parse = 0.499 ∧
    configReversalDelta emptyEnv parse = 0.020 ∧
    configDepthBuyDiscountPercent emptyEnv parse = 0.05 ∧
    configMaxSumAvg emptyEnv parse = 0.98 :=
  ⟨rfl, rfl, rfl, rfl⟩

/-- Helper: `envString` with no fallback yields `none` exactly when the
variable is unset or its value trims to the empty string. -/
theorem envString_none_iff (env : Env) (name : String) :
    envString env name none = none ↔ ∀ v, env name = some v → jsTrim v = "" := by
  unfold envString
  cases h : env name with
  | none => simp
  | some v =>
    by_cases ht : jsTrim v = ""
    · simp [ht]
    · simp [ht]

/-- C5: `requireEnv` errors exactly when the variable is unset or blank, the
error is the `name not found` message, `requirePrivateKey` is `requireEnv`
on PRIVATE_KEY, and `createCredential` aborts (returns `none` before any
credential-creation work) exactly when `requirePrivateKey` errors. -/
theorem C5_credential_abort (env : Env) (name : String) :
    ((requireEnv env name).isOk = false ↔ ∀ v, env name = some v → jsTrim v = "") ∧
    ((requireEnv env name).isOk = false →
      requireEnv env name = Except.error (name ++ " not found")) ∧
    requirePrivateKey env = requireEnv env "PRIVATE_KEY" ∧
    (createCredential env = none ↔ (requirePrivateKey env).isOk = false) := by
  refine ⟨?_, ?_, rfl, ?_⟩
  · rw [← envString_none_iff env name]
    unfold requireEnv
    cases h : envString env name none <;> simp [Except.isOk, Except.toBool]
  · unfold requireEnv
    cases h : envString env name none <;> simp [Except.isOk, Except.toBool]
  · unfold createCredential configPrivateKey requirePrivateKey requireEnv
    cases h : envString env "PRIVATE_KEY" none <;> simp [Except.isOk, Except.toBool]

/-- Witness for C5: with an empty environment, startup aborts: the private
key lookup errors with its message and `createCredential` returns `none`. -/
theorem C5_credential_abort_witness :
    (requireEnv emptyEnv "PRIVATE_KEY").isOk = false ∧
    requireEnv emptyEnv "PRIVATE_KEY" = Except.error "PRIVATE_KEY not found" ∧
    createCredential emptyEnv = none := by
  have h := C5_credential_abort emptyEnv "PRIVATE_KEY"
  have h1 : (requireEnv emptyEnv "PRIVATE_KEY").isOk = false :=
    h.1.mpr (fun v hv => Option.noConfusion hv)
  exact ⟨h1, h.2.1 h1, h.2.2.2.mpr h1⟩

/-- C6: `simulateTx` is total (never throws) and returns `true` exactly when
the HTTP POST completed with a 2xx status; every transport exception and
every non-2xx status yields `false`. -/
theorem C6_simulateTx (res : HttpResult) :
    simulateTx res = true ↔
      ∃ status, res = HttpResult.response status ∧ 200 ≤ status ∧ status < 300 := by
  cases res with
  | response s => simp [simulateTx]
  | exception => simp [simulateTx]

/-- C9: `getUsdcBalance` never throws: each failure outcome yields 0, a
success yields the parsed balance (missing field read as "0") divided by
10^6, and when `parseFloat "0" = 0` a missing-balance success is
indistinguishable from a failed fetch. -/
theorem C9_getUsdcBalance (parseF : FloatParse) :
    getUsdcBalance parseF BalanceFetch.clientUnavailable = 0 ∧
    getUsdcBalance parseF BalanceFetch.requestError = 0 ∧
    (∀ b, getUsdcBalance parseF (BalanceFetch.success b) = parseF (jsOrString b "0") / 10 ^ 6) ∧
    jsOrString none "0" = "0" ∧
    (parseF "0" = 0 →
      getUsdcBalance parseF (BalanceFetch.success none) =
        getUsdcBalance parseF BalanceFetch.clientUnavailable) := by
  refine ⟨rfl, rfl, fun b => rfl, rfl, ?_⟩
  intro h
  simp [getUsdcBalance, jsOrString, h]

/-- Witness for C9: with a parser sending "0" to 0, a success with a missing
balance field equals a failed fetch. -/
theorem C9_getUsdcBalance_witness :
    getUsdcBalance (fun _ => 0) (BalanceFetch.success none) =
      getUsdcBalance (fun _ => 0) BalanceFetch.clientUnavailable :=
  (C9_getUsdcBalance (fun _ => 0)).2.2.2.2 rfl

/-- C10: `envNumber` returns the fallback when the variable is unset, blank,
or parses to a non-finite number, and otherwise returns the parsed finite
number (of the trimmed raw value). -/
theorem C10_envNumber (env : Env) (parse : NumParse) (name : String) (fallback : ℚ) :
    (env name = none → envNumber env parse name fallback = fallback) ∧
    (∀ v, env name = some v → jsTrim v = "" →
      envNumber env parse name fallback = fallback) ∧
    (∀ v, env name = some v → jsTrim v ≠ "" → parse (jsTrim v) = none →
      envNumber env parse name fallback = fallback) ∧
    (∀ v n, env name = some v → jsTrim v ≠ "" → parse (jsTrim v) = some n →
      envNumber env parse name fallback = n) := by
  refine ⟨?_, ?_, ?_, ?_⟩
  · intro h
    simp [envNumber, envString, h]
  · intro v hv ht
    simp [envNumber, envString, hv, ht]
  · intro v hv ht hp
    simp [envNumber, envString, hv, ht, hp]
  · intro v n hv ht hp
    simp [envNumber, envString, hv, ht, hp]

/-- Witness for C10: a set variable whose trimmed value parses finitely is
returned as parsed; here the raw value "7" yields 7 rather than the
fallback 0. -/
theorem C10_envNumber_witness :
    envNumber (fun _ => some "7") (fun s => if s = "7" then some (7 : ℚ) else none) "N" 0 = 7 :=
  (C10_envNumber (fun _ => some "7") (fun s => if s = "7" then some (7 : ℚ) else none) "N" 0).2.2.2
    "7" 7 rfl (by decide) (by decide)

/-- Helper: ASCII lowercasing of a character is idempotent. -/
theorem char_toLower_idem (c : Char) : Char.toLower (Char.toLower c) = Char.toLower c := by
  by_cases h : 65 ≤ c.toNat ∧ c.toNat ≤ 90
  · have h1 : Char.toLower c = Char.ofNat (c.toNat + 32) := by
      unfold Char.toLower
      rw [if_pos ⟨h.1, h.2⟩]
    rw [h1]
    obtain ⟨ha, hb⟩ := h
    generalize c.toNat = k at ha hb
    interval_cases k <;> decide
  · have h1 : Char.toLower c = c := by
      unfold Char.toLower
      rw [if_neg]
      intro hc
      exact h ⟨hc.1, hc.2⟩
    rw [h1, h1]

/-- Helper: JS lowercasing of a string is idempotent. -/
theorem jsToLower_idem (s : String) : jsToLower (jsToLower s) = jsToLower s := by
  unfold jsToLower
  apply congrArg
  show (s.data.map Char.toLower).map Char.toLower = s.data.map Char.toLower
  induction s.data with
  | nil => rfl
  | cons c l ih => simp [ih, char_toLower_idem]

/-- Helper: lowercasing yields the empty string only on the empty string. -/
theorem jsToLower_empty_iff (s : String) : jsToLower s = "" ↔ s = "" := by
  unfold jsToLower
  cases s with
  | mk l =>
    constructor
    · intro h
      have h2 : l.map Char.toLower = [] := congrArg String.data h
      have h3 : l = [] := List.map_eq_nil_iff.mp h2
      rw [h3]
    · intro h
      have h3 : l = [] := congrArg String.data h
      rw [h3]
      rfl

/-- Helper: the code's map-then-filter pipeline equals the spec's
filter-then-map description of the market list. -/
theorem csv_code_eq_spec (raw : String) :
    ((jsSplitComma raw).map (fun s => jsToLower (jsTrim s))).filter (fun s => s != "") =
      csvSpec raw := by
  unfold csvSpec
  induction jsSplitComma raw with
  | nil => rfl
  | cons e l ih =>
    simp only [List.map_cons, List.filter_cons]
    by_cases he : jsTrim e = ""
    · have hlow : jsToLower (jsTrim e) = "" := by
        rw [he]
        rfl
      simp [he, hlow, ih]
      rfl
    · have hlow : jsToLower (jsTrim e) ≠ "" := fun hc => he ((jsToLower_empty_iff _).mp hc)
      simp [he, hlow, ih]

/-- C7: the configured market list is exactly the comma-separated entries,
trimmed and lowercased, with entries that trim to empty removed; hence
every configured market (in particular in `config.copytrade.markets`) is a
non-empty lowercase string. -/
theorem C7_markets (env : Env) (name : String) (fallbackCsv : String) :
    envCsvLower env name fallbackCsv =
      csvSpec ((envString env name (some fallbackCsv)).getD fallbackCsv) ∧
    (∀ s ∈ envCsvLower env name fallbackCsv, s ≠ "" ∧ isLowerStr s) ∧
    (∀ s ∈ configMarkets env, s ≠ "" ∧ isLowerStr s) := by
  have hmem : ∀ (env2 : Env) (name2 fb2 : String),
      ∀ s ∈ envCsvLower env2 name2 fb2, s ≠ "" ∧ isLowerStr s := by
    intro env2 name2 fb2 s hs
    unfold envCsvLower at hs
    have h1 := List.mem_filter.mp hs
    have hne : s ≠ "" := by
      intro hc
      rw [hc] at h1
      simp at h1
    refine ⟨hne, ?_⟩
    have h2 := List.mem_map.mp h1.1
    obtain ⟨e, _, he⟩ := h2
    unfold isLowerStr
    rw [← he]
    exact jsToLower_idem (jsTrim e)
  refine ⟨?_, hmem env name fallbackCsv, ?_⟩
  · unfold envCsvLower
    exact csv_code_eq_spec _
  · unfold configMarkets
    exact hmem env "COPYTRADE_MARKETS" _

/-- Helper: an attempted buy only increments a side's counter under the
per-side cap check, so it preserves the cap invariant. -/
theorem attemptBuy_buys_le (cfg : EngineConfig) (st : EngineState) (s : Side) (price : ℚ)
    (hA : st.pos.buysA ≤ cfg.maxBuysPerSide) (hB : st.pos.buysB ≤ cfg.maxBuysPerSide) :
    (attemptBuy cfg st s price).pos.buysA ≤ cfg.maxBuysPerSide ∧
    (attemptBuy cfg st s price).pos.buysB ≤ cfg.maxBuysPerSide := by
  unfold attemptBuy
  split
  · rename_i hcond
    have hlt : st.pos.buys s < cfg.maxBuysPerSide := by
      have h1 := (Bool.and_eq_true _ _).mp hcond
      exact of_decide_eq_true h1.1
    unfold doBuy PositionState.applyBuy
    cases s <;> simp [PositionState.buys] at hlt ⊢ <;> omega
  · exact ⟨hA, hB⟩

/-- Helper: one tick of the decision engine preserves the per-side cap
invariant. -/
theorem tick_buys_le (cfg : EngineConfig) (st : EngineState) (pA pB : ℚ)
    (hA : st.pos.buysA ≤ cfg.maxBuysPerSide) (hB : st.pos.buysB ≤ cfg.maxBuysPerSide) :
    (tick cfg st pA pB).pos.buysA ≤ cfg.maxBuysPerSide ∧
    (tick cfg st pA pB).pos.buysB ≤ cfg.maxBuysPerSide := by
  unfold tick
  split
  · exact ⟨hA, hB⟩
  · cases hw : st.track.watched with
    | none =>
      dsimp only
      split
      · exact attemptBuy_buys_le cfg st Side.A pA hA hB
      · split
        · exact attemptBuy_buys_le cfg st Side.B pB hA hB
        · exact ⟨hA, hB⟩
    | some s =>
      dsimp only
      split
      · exact attemptBuy_buys_le cfg _ s _ hA hB
      · exact ⟨hA, hB⟩

/-- C1: for every configuration and every sequence of ticks within a cycle,
the per-side buy counters of the decision engine's position state never
exceed the configured cap. -/
theorem C1_buy_caps (cfg : EngineConfig) (ticks : List (ℚ × ℚ)) :
    (runTicks cfg initEngine ticks).pos.buysA ≤ cfg.maxBuysPerSide ∧
    (runTicks cfg initEngine ticks).pos.buysB ≤ cfg.maxBuysPerSide := by
  have main : ∀ (l : List (ℚ × ℚ)) (st : EngineState),
      st.pos.buysA ≤ cfg.maxBuysPerSide → st.pos.buysB ≤ cfg.maxBuysPerSide →
      (runTicks cfg st l).pos.buysA ≤ cfg.maxBuysPerSide ∧
      (runTicks cfg st l).pos.buysB ≤ cfg.maxBuysPerSide := by
    intro l
    induction l with
    | nil => intro st h1 h2; exact ⟨h1, h2⟩
    | cons p rest ih =>
      intro st h1 h2
      have h := tick_buys_le cfg st p.1 p.2 h1 h2
      exact ih (tick cfg st p.1 p.2) h.1 h.2
  exact main ticks initEngine (Nat.zero_le _) (Nat.zero_le _)

/-- Sanity check: the engine model is not vacuous — with the default
configuration, a first tick at prices (0.48, 0.90) triggers a flexible
entry on side A, and a complete hedge cycle respects the caps. -/
theorem engine_buys_example :
    (runTicks defaultEngineConfig initEngine [(0.48, 0.90)]).pos.buysA = 1 ∧
    (runTicks defaultEngineConfig initEngine [(0.48, 0.90)]).pos.buysB = 0 := by
  norm_num [runTicks, tick, initEngine, initTracking, initPosition, attemptBuy, guardAccepts,
    doBuy, PositionState.applyBuy, PositionState.buys, PositionState.sumAvg,
    defaultEngineConfig, triggerFires]

/-- Witness for C6: a 204 response simulates OK; a 500 response and a
transport exception do not. -/
theorem C6_simulateTx_witness :
    simulateTx (HttpResult.response 204) = true ∧
    simulateTx (HttpResult.response 500) ≠ true ∧
    simulateTx HttpResult.exception ≠ true :=
  ⟨(C6_simulateTx (HttpResult.response 204)).mpr ⟨204, rfl, by norm_num, by norm_num⟩,
   fun h => by
     obtain ⟨s, hs, h1, h2⟩ := (C6_simulateTx (HttpResult.response 500)).mp h
     cases hs
     omega,
   fun h => by
     obtain ⟨s, hs, h1, h2⟩ := (C6_simulateTx HttpResult.exception).mp h
     cases hs⟩

/-- Witness for C7: in an empty environment the market list is the fallback
["btc"], whose single entry is non-empty and lowercase. -/
theorem C7_markets_witness :
    "btc" ∈ configMarkets emptyEnv ∧ "btc" ≠ "" ∧ isLowerStr "btc" := by
  have hmem : "btc" ∈ configMarkets emptyEnv := by decide
  have h := (C7_markets emptyEnv "COPYTRADE_MARKETS" "btc").2.2 "btc" hmem
  exact ⟨hmem, h.1, h.2⟩
